import Mathlib

/-!
Shallow embedding of the donation-analytics repository
(`src/repeat_donations.py`, driven by `src/main.py`) and verification of the
frozen claims about it.

Modelling conventions:
* Python `float` values (transaction amounts, percentile intermediate values)
  are modelled as exact rationals `ℚ`.  Where a claim's truth depends on IEEE
  binary64 rounding, an explicit binary64 rounding model `fl64` is used.
* Python dicts with `defaultdict` semantics are modelled as total functions
  from the key type.
* Fallible Python operations (list indexing, `int(...)`, `float(...)`,
  iteration of an exhausted stream, division by zero, use of an unbound
  variable) are modelled with `Option` / `Except Err`.
* Input streams are modelled as `List String`, one element per line.
-/

/-- Errors that can abort a run of the driver, mirroring the Python
exceptions that the corresponding operations raise. -/
inductive Err where
  /-- `IndexError` raised inside `read_dict` when a line has too few fields
  (the spec's ParseError). -/
  | parseError
  /-- `ValueError` raised by `int(...)`/`float(...)` in `clean_input_row`
  (the spec's NormalizationError). -/
  | normError
  /-- `IndexError` raised by `a[n - 1]` in `nearest_rank_percentile`. -/
  | indexError
  /-- `ZeroDivisionError` raised by `buffer_cnt % buffer_size`. -/
  | zeroDivError
  /-- `NameError` raised by the final progress print when the loop variable
  `i` was never bound (empty input). -/
  | nameError
  /-- `StopIteration` raised by `next(percentile_fp)` on an empty stream. -/
  | stopIteration
  /-- `ValueError` raised by `int(...)` on the percentile line. -/
  | valueError
deriving DecidableEq

/-! ## Character-level helpers (models of Python string primitives) -/

/-- Model of Python `str.split('|')` on the character list of a line. -/
def splitPipeAux : List Char → List Char → List String
  | [], acc => [String.mk acc.reverse]
  | c :: rest, acc =>
    if c = '|' then String.mk acc.reverse :: splitPipeAux rest []
    else splitPipeAux rest (c :: acc)

/-- Model of Python `line.split('|')`. -/
def splitPipe (s : String) : List String := splitPipeAux s.data []

/-- Whitespace recognised by Python's `str.strip()` (the cases that occur in
the modelled streams). -/
def isPySpace (c : Char) : Bool := c = ' ' || c = '\n' || c = '\t' || c = '\r'

/-- Strip leading and trailing whitespace from a character list. -/
def trimChars (l : List Char) : List Char :=
  ((l.dropWhile isPySpace).reverse.dropWhile isPySpace).reverse

/-- Decimal value of a list of digit characters (most significant first). -/
def digitsToNat (l : List Char) : ℕ :=
  l.foldl (fun a c => 10 * a + (c.toNat - 48)) 0

/-- Model of Python `int(...)` applied to a character list: optional
whitespace, optional sign, one or more decimal digits. -/
def pyIntChars (l : List Char) : Option ℤ :=
  match trimChars l with
  | '-' :: ds => if ds ≠ [] ∧ ds.all Char.isDigit then some (-(digitsToNat ds : ℤ)) else none
  | '+' :: ds => if ds ≠ [] ∧ ds.all Char.isDigit then some (digitsToNat ds : ℤ) else none
  | ds => if ds ≠ [] ∧ ds.all Char.isDigit then some (digitsToNat ds : ℤ) else none

/-- Model of Python `int(...)` on a string. -/
def pyInt (s : String) : Option ℤ := pyIntChars s.data

/-- Parse an unsigned decimal literal (digits, optionally a dot and more
digits) into an exact rational. -/
def parseUnsignedDec (l : List Char) : Option ℚ :=
  let intPart := l.takeWhile Char.isDigit
  match l.dropWhile Char.isDigit with
  | [] => if intPart.isEmpty then none else some (digitsToNat intPart : ℚ)
  | '.' :: frac =>
    if frac.all Char.isDigit && !(intPart.isEmpty && frac.isEmpty) then
      some ((digitsToNat intPart : ℚ) + (digitsToNat frac : ℚ) / (10 : ℚ) ^ frac.length)
    else none
  | _ => none

/-- Model of Python `float(...)` on plain decimal literals, as an exact
rational. -/
def pyFloat (s : String) : Option ℚ :=
  match trimChars s.data with
  | '-' :: rest => (parseUnsignedDec rest).map (fun q => -q)
  | '+' :: rest => parseUnsignedDec rest
  | rest => parseUnsignedDec rest

/-- Model of Python list indexing `a[i]` (negative indices address from the
end; out-of-range indices raise `IndexError`, modelled as `none`). -/
def pyIndex (a : List ℚ) (i : ℤ) : Option ℚ :=
  let j : ℤ := if i < 0 then i + a.length else i
  if h : 0 ≤ j ∧ j.toNat < a.length then some (a.get ⟨j.toNat, h.2⟩) else none

/-! ## Data model (`repeat_donations.py`) -/

/-- The six columns of an FEC row that `read_dict` is asked to keep
(`usecols` in `get_repeat_donations`), all still text. -/
structure InputRow where
  name : String
  zip_code : String
  cmte_id : String
  transaction_amt : String
  transaction_dt : String
  other_id : String
deriving DecidableEq

/-- A row after `clean_input_row`: zip truncated to 5 characters, the year
extracted from the date, the amount parsed as a number. -/
structure CleanRow where
  name : String
  zip_code : String
  cmte_id : String
  year : ℤ
  transaction_amt : ℚ
  other_id : String

/-- `DonorHistory`: per-donor state (`max_year`, `count`), default `(0, 0)`
as produced by `defaultdict(DonorHistory)`. -/
structure DonorHistory where
  max_year : ℤ
  count : ℕ
deriving DecidableEq

/-- Donor key `(name, zip_code)` (`input_row_to_donor_key`). -/
abbrev DonorKey := String × String

/-- Campaign key `(cmte_id, zip_code, year)` (`input_row_to_campaign_key`). -/
abbrev CampaignKey := String × String × ℤ

/-- The per-line part of `read_dict`: split on the separator and read the
six used columns at their schema indices (`cmte_id` 0, `name` 7, `zip_code`
10, `transaction_dt` 13, `transaction_amt` 14, `other_id` 15).  A line with
too few fields raises `IndexError`. -/
def parseLine (line : String) : Except Err InputRow :=
  let vs := splitPipe line
  match vs.get? 0, vs.get? 7, vs.get? 10, vs.get? 13, vs.get? 14, vs.get? 15 with
  | some cmte, some nm, some zip, some dt, some amt, some oid =>
    .ok ⟨nm, zip, cmte, amt, dt, oid⟩
  | _, _, _, _, _, _ => .error .parseError

/-- `skip_input_row`: decide whether an input row is skipped. -/
def skip_input_row (r : InputRow) : Bool :=
  decide (1 < r.other_id.length) ||
  decide (r.zip_code.length < 5) ||
  decide (r.transaction_dt.length ≠ 8) ||
  decide (r.name.length = 0) ||
  decide (r.cmte_id.length = 0) ||
  decide (r.transaction_amt.length = 0)

/-- `clean_input_row`: truncate the zip to five characters, extract the year
from the last four characters of the date, parse the amount. -/
def clean_input_row (r : InputRow) : Except Err CleanRow :=
  let zip5 := String.mk (r.zip_code.data.take 5)
  match pyIntChars (r.transaction_dt.data.drop (r.transaction_dt.data.length - 4)),
        pyFloat r.transaction_amt with
  | some y, some amt => .ok ⟨r.name, zip5, r.cmte_id, y, amt, r.other_id⟩
  | _, _ => .error .normError

/-- `input_row_to_donor_key`. -/
def input_row_to_donor_key (r : CleanRow) : DonorKey := (r.name, r.zip_code)

/-- `input_row_to_campaign_key`. -/
def input_row_to_campaign_key (r : CleanRow) : CampaignKey :=
  (r.cmte_id, r.zip_code, r.year)

/-- `update_donor_history` (functional form of the in-place update). -/
def update_donor_history (h : DonorHistory) (year : ℤ) : DonorHistory :=
  { max_year := max h.max_year year, count := h.count + 1 }

/-- `skip_donor_history`: skip unless the donor is a repeat donor whose
just-updated `max_year` equals this record's year. -/
def skip_donor_history (h : DonorHistory) (year : ℤ) : Bool :=
  decide (h.count < 2) || decide (h.max_year ≠ year)

/-- `bisect.insort_left`: insert `x` before the leftmost element that is
`≥ x`, preserving ascending order. -/
def insort_left : List ℚ → ℚ → List ℚ
  | [], x => [x]
  | y :: ys, x => if x ≤ y then x :: y :: ys else y :: insort_left ys x

/-- `update_campaign_history` (functional form): the campaign's `amounts`
list after inserting this row's amount. -/
def update_campaign_history (amounts : List ℚ) (amt : ℚ) : List ℚ :=
  insort_left amounts amt

/-- `nearest_rank_percentile`: `a[int(ceil(p / 100 * len(a))) - 1]`, with the
rank arithmetic taken over exact rationals. -/
def nearest_rank_percentile (a : List ℚ) (p : ℤ) : Option ℚ :=
  pyIndex a (⌈(p : ℚ) / 100 * a.length⌉ - 1)

/-! ## Output formatting (`get_output_str`) -/

/-- Model of Python `round(...)` on an exact rational: round half to even. -/
def pyRound (q : ℚ) : ℤ :=
  let f := ⌊q⌋
  if q - f < 1/2 then f
  else if 1/2 < q - f then f + 1
  else if f % 2 = 0 then f else f + 1

/-- Model of Python `int(...)` on a number: truncation toward zero. -/
def pyTrunc (q : ℚ) : ℤ := if q < 0 then ⌈q⌉ else ⌊q⌋

/-- Decimal digit characters of `n` (most significant first), accumulator
style; `fuel` bounds the recursion and `fuel = n + 1` always suffices. -/
def digitCharsAux : ℕ → ℕ → List Char → List Char
  | 0, _, acc => acc
  | fuel + 1, n, acc =>
    let acc' := Nat.digitChar (n % 10) :: acc
    if n < 10 then acc' else digitCharsAux fuel (n / 10) acc'

/-- Decimal rendering of a natural number (model of `'%d' %`). -/
def natRepr (n : ℕ) : String := String.mk (digitCharsAux (n + 1) n [])

/-- Decimal rendering of an integer (model of `'%d' %`). -/
def intRepr (i : ℤ) : String :=
  if i < 0 then "-" ++ natRepr i.natAbs else natRepr i.natAbs

/-- Model of `'%.2lf' %`: fixed two-decimal rendering of an exact rational
(the value is rounded to a whole number of hundredths, ties to even). -/
def fmt2 (q : ℚ) : String :=
  let m := pyRound (q * 100)
  (if m < 0 then "-" else "") ++ natRepr (m.natAbs / 100) ++ "." ++
    String.mk [Nat.digitChar (m.natAbs / 10 % 10), Nat.digitChar (m.natAbs % 10)]

/-- `get_output_str`: one output line
`cmte_id|zip_code|year|round(percentile)|sum|count` with a trailing newline;
the sum is printed with `'%d'` when `int(sum_) == sum_` and with `'%.2lf'`
otherwise. -/
def get_output_str (cmte_id zip_code : String) (year : ℤ) (percentile sum_ : ℚ)
    (count : ℕ) : String :=
  cmte_id ++ "|" ++ zip_code ++ "|" ++ intRepr year ++ "|" ++
    intRepr (pyRound percentile) ++ "|" ++
    (if (pyTrunc sum_ : ℚ) ≠ sum_ then fmt2 sum_ else intRepr (pyTrunc sum_)) ++
    "|" ++ natRepr count ++ "\n"

/-- Rendering of the sum field as the spec describes it: integral sums as a
plain integer string, others in fixed two-decimal form. -/
def renderSum (sum_ : ℚ) : String :=
  if sum_.den = 1 then intRepr sum_.num else fmt2 sum_

/-! ## Ledger state and the per-record core pipeline -/

/-- The two process-wide ledgers: `dnr_hsts` and `cmp_hsts` (each campaign's
`CampaignHistory` is its `amounts` list), as total maps with the
`defaultdict` defaults. -/
structure CoreState where
  donors : DonorKey → DonorHistory
  campaigns : CampaignKey → List ℚ

/-- The initial (empty) ledgers. -/
def coreInit : CoreState := ⟨fun _ => ⟨0, 0⟩, fun _ => []⟩

/-- The ledger effect of one structurally valid, cleaned record: always
update the donor's history; update the campaign's amounts exactly when the
donor gate passes (lines 284-292 of `repeat_donations.py`). -/
def processRowCore (s : CoreState) (r : CleanRow) : CoreState :=
  let dkey := input_row_to_donor_key r
  let ckey := input_row_to_campaign_key r
  let h := update_donor_history (s.donors dkey) r.year
  let donors' := Function.update s.donors dkey h
  if skip_donor_history h r.year then { donors := donors', campaigns := s.campaigns }
  else
    { donors := donors',
      campaigns := Function.update s.campaigns ckey
        (update_campaign_history (s.campaigns ckey) r.transaction_amt) }

/-- Ledger state after a list of structurally valid records. -/
def runRows (s : CoreState) (rows : List CleanRow) : CoreState :=
  rows.foldl processRowCore s

/-- Donor-ledger effect of one record, in isolation. -/
def donorStep (d : DonorKey → DonorHistory) (r : CleanRow) : DonorKey → DonorHistory :=
  Function.update d (input_row_to_donor_key r)
    (update_donor_history (d (input_row_to_donor_key r)) r.year)

/-- Does this record pass the repeat-donor gate (against the just-updated
donor history)? -/
def qualifies (d : DonorKey → DonorHistory) (r : CleanRow) : Bool :=
  ! skip_donor_history
      (update_donor_history (d (input_row_to_donor_key r)) r.year) r.year

/-- Number of records of `rows` that qualify for campaign key `k`, starting
from donor ledger `d`. -/
def qualCount (d : DonorKey → DonorHistory) (rows : List CleanRow) (k : CampaignKey) : ℕ :=
  match rows with
  | [] => 0
  | r :: rs =>
    (if qualifies d r && decide (input_row_to_campaign_key r = k) then 1 else 0) +
      qualCount (donorStep d r) rs k

/-! ## The stream driver (`get_repeat_donations`) -/

/-- Mutable state of the driver loop: the two ledgers, the output buffer and
its emitted-line count, and everything written to the output sink so far. -/
structure DriverState where
  donors : DonorKey → DonorHistory
  campaigns : CampaignKey → List ℚ
  buffer_str : String
  buffer_cnt : ℤ
  out : String

/-- Driver state before the loop. -/
def initState : DriverState := ⟨fun _ => ⟨0, 0⟩, fun _ => [], "", 0, ""⟩

/-- One iteration of the driver loop on one raw input line (lines 271-306 of
`repeat_donations.py`): parse, validate, clean, update the donor ledger,
gate, update the campaign ledger, format, buffer, flush when the emitted
count is `0` modulo the buffer size. -/
def stepLine (p : ℤ) (bsize : ℤ) (st : DriverState) (line : String) :
    Except Err DriverState :=
  match parseLine line with
  | .error e => .error e
  | .ok row =>
    if skip_input_row row then .ok st
    else
      match clean_input_row row with
      | .error e => .error e
      | .ok r =>
        let dkey := input_row_to_donor_key r
        let ckey := input_row_to_campaign_key r
        let h := update_donor_history (st.donors dkey) r.year
        let donors' := Function.update st.donors dkey h
        if skip_donor_history h r.year then .ok { st with donors := donors' }
        else
          let amounts' := update_campaign_history (st.campaigns ckey) r.transaction_amt
          let campaigns' := Function.update st.campaigns ckey amounts'
          match nearest_rank_percentile amounts' p with
          | none => .error .indexError
          | some pct =>
            let buf := st.buffer_str ++
              get_output_str r.cmte_id r.zip_code r.year pct amounts'.sum amounts'.length
            let cnt := st.buffer_cnt + 1
            if bsize = 0 then .error .zeroDivError
            else if Int.fmod cnt bsize = 0 then
              .ok ⟨donors', campaigns', "", 0, st.out ++ buf⟩
            else .ok ⟨donors', campaigns', buf, cnt, st.out⟩

/-- The driver loop: run `stepLine` over the input lines in order, stopping
at the first error. -/
def runLines (p bsize : ℤ) (st : DriverState) : List String → Except Err DriverState
  | [] => .ok st
  | l :: ls =>
    match stepLine p bsize st l with
    | .error e => .error e
    | .ok st' => runLines p bsize st' ls

/-- `get_repeat_donations`: read the percentile from the first line of the
percentile stream, run the loop over the input lines, and flush the
remaining buffer at stream end.  The final progress print references the
loop variable `i`, which is unbound when the input had no lines, so that
case raises `NameError` before the final flush. -/
def get_repeat_donations (inputLines percentileLines : List String) (bsize : ℤ) :
    Except Err String :=
  match percentileLines with
  | [] => .error .stopIteration
  | pl :: _ =>
    match pyInt pl with
    | none => .error .valueError
    | some p =>
      match runLines p bsize initState inputLines with
      | .error e => .error e
      | .ok st =>
        if inputLines.isEmpty then .error .nameError
        else .ok (st.out ++ st.buffer_str)

/-! ## IEEE binary64 model (for the percentile rank computed in floats) -/

/-- Round an exact rational to IEEE binary64 (round to nearest, ties to
even), in the normal range: the result is the nearest rational of the form
`m * 2 ^ e` with `2 ^ 52 ≤ |m| < 2 ^ 53`.  Python floats are binary64, so
`p / 100 * len(a)` in `nearest_rank_percentile` is
`fl64 (fl64 (p / 100) * len a)`. -/
def fl64 (q : ℚ) : ℚ :=
  if q = 0 then 0
  else
    let s : ℚ := if q < 0 then -1 else 1
    let x := |q|
    let e : ℤ := Int.log 2 x - 52
    s * (pyRound (x / 2 ^ e) : ℚ) * 2 ^ e

/-- `nearest_rank_percentile` with the rank arithmetic performed in IEEE
binary64, exactly as Python evaluates `int(ceil(p / 100 * len(a)))`. -/
def nearest_rank_float (a : List ℚ) (p : ℤ) : Option ℚ :=
  pyIndex a (⌈fl64 (fl64 ((p : ℚ) / 100) * a.length)⌉ - 1)

/-- A campaign with 100 qualifying amounts `1, 2, ..., 100`. -/
def demoList : List ℚ :=
  [1, 2, 3, 4, 5, 6, 7, 8, 9, 10, 11, 12, 13, 14, 15, 16, 17, 18, 19, 20,
   21, 22, 23, 24, 25, 26, 27, 28, 29, 30, 31, 32, 33, 34, 35, 36, 37, 38, 39, 40,
   41, 42, 43, 44, 45, 46, 47, 48, 49, 50, 51, 52, 53, 54, 55, 56, 57, 58, 59, 60,
   61, 62, 63, 64, 65, 66, 67, 68, 69, 70, 71, 72, 73, 74, 75, 76, 77, 78, 79, 80,
   81, 82, 83, 84, 85, 86, 87, 88, 89, 90, 91, 92, 93, 94, 95, 96, 97, 98, 99, 100]

/-! ## Concrete demonstration data -/

/-- A well-formed FEC line: committee `C00000001`, donor `SMITH, JOHN`,
zip `100013933`, date `01312017`, amount `100`, empty `other_id`. -/
def lineA : String := "C00000001|||||||SMITH, JOHN|||100013933|||01312017|100||||||"

/-- Same donor, committee, zip and year as `lineA`, amount `200`. -/
def lineB : String := "C00000001|||||||SMITH, JOHN|||100013933|||01312017|200||||||"

/-- Driver state after processing `lineA` from the initial state: the donor
ledger knows `("SMITH, JOHN", "10001")` with one 2017 donation, nothing
else changed. -/
def stA : DriverState :=
  ⟨Function.update initState.donors ("SMITH, JOHN", "10001") ⟨2017, 1⟩,
   initState.campaigns, "", 0, ""⟩

/-- A ledger state in which every donor already has five donations with a
maximal year of 2020. -/
def demoDonorState : CoreState := ⟨fun _ => ⟨2020, 5⟩, fun _ => []⟩

/-- A cleaned 2017 record for donor `("SMITH, JOHN", "10001")`. -/
def demoRow : CleanRow := ⟨"SMITH, JOHN", "10001", "C00000001", 2017, 100, ""⟩

/-- A parsed row whose `other_id` has exactly one character and whose other
fields are all valid. -/
def demoOtherId1 : InputRow :=
  ⟨"SMITH, JOHN", "10001", "C00000001", "100", "01312017", "X"⟩

/-! ## Basic lemmas about the ordered insertion -/

theorem insort_left_length (l : List ℚ) (x : ℚ) :
    (insort_left l x).length = l.length + 1 := by
  induction l with
  | nil => rfl
  | cons y ys ih => by_cases h : x ≤ y <;> simp [insort_left, h, ih]

theorem insort_left_ne_nil (l : List ℚ) (x : ℚ) : insort_left l x ≠ [] := by
  cases l with
  | nil => simp [insort_left]
  | cons y ys => by_cases h : x ≤ y <;> simp [insort_left, h]

theorem insort_left_eq_orderedInsert (l : List ℚ) (x : ℚ) :
    insort_left l x = l.orderedInsert (· ≤ ·) x := by
  induction l with
  | nil => rfl
  | cons y ys ih => by_cases h : x ≤ y <;> simp [insort_left, List.orderedInsert, h, ih]

theorem insort_left_sorted (l : List ℚ) (x : ℚ) (hl : l.Sorted (· ≤ ·)) :
    (insort_left l x).Sorted (· ≤ ·) := by
  rw [insort_left_eq_orderedInsert]
  exact hl.orderedInsert x l

/-! ## Basic lemmas about the donor gate -/

theorem skip_donor_history_eq_false (h : DonorHistory) (y : ℤ) :
    skip_donor_history h y = false ↔ 2 ≤ h.count ∧ h.max_year = y := by
  simp [skip_donor_history, not_lt, Decidable.not_not]

theorem processRowCore_donors (s : CoreState) (r : CleanRow) :
    (processRowCore s r).donors = donorStep s.donors r := by
  simp only [processRowCore, donorStep]
  split <;> rfl

theorem processRowCore_campaigns (s : CoreState) (r : CleanRow) :
    (processRowCore s r).campaigns =
      if qualifies s.donors r then
        Function.update s.campaigns (input_row_to_campaign_key r)
          (update_campaign_history (s.campaigns (input_row_to_campaign_key r))
            r.transaction_amt)
      else s.campaigns := by
  unfold processRowCore qualifies
  cases h : skip_donor_history
      (update_donor_history (s.donors (input_row_to_donor_key r)) r.year) r.year <;>
    simp [h]

theorem qualifies_iff (d : DonorKey → DonorHistory) (r : CleanRow) :
    qualifies d r = true ↔
      2 ≤ (update_donor_history (d (input_row_to_donor_key r)) r.year).count ∧
      (update_donor_history (d (input_row_to_donor_key r)) r.year).max_year = r.year := by
  unfold qualifies
  rw [Bool.not_eq_true', skip_donor_history_eq_false]

theorem donorStep_mono (d : DonorKey → DonorHistory) (r : CleanRow) (k : DonorKey) :
    (d k).max_year ≤ (donorStep d r k).max_year ∧ (d k).count ≤ (donorStep d r k).count := by
  unfold donorStep
  by_cases h : k = input_row_to_donor_key r
  · subst h
    rw [Function.update_same]
    exact ⟨le_max_left _ _, Nat.le_succ _⟩
  · rw [Function.update_noteq h]
    exact ⟨le_refl _, le_refl _⟩

/-! ## Lemmas about the percentile lookup -/

theorem pyIndex_some (a : List ℚ) (i : ℤ) (h0 : 0 ≤ i) (hlt : i.toNat < a.length) :
    pyIndex a i = some (a.get ⟨i.toNat, hlt⟩) := by
  have hni : ¬ i < 0 := not_lt.mpr h0
  simp only [pyIndex, hni, if_false]
  rw [dif_pos ⟨h0, hlt⟩]

theorem rank_bounds (a : List ℚ) (p : ℤ) (ha : a ≠ []) (h1 : 1 ≤ p) (h2 : p ≤ 100) :
    1 ≤ ⌈(p : ℚ) / 100 * a.length⌉ ∧ ⌈(p : ℚ) / 100 * a.length⌉ ≤ (a.length : ℤ) := by
  have hn : 0 < a.length := List.length_pos.mpr ha
  have hp0 : (0 : ℚ) < (p : ℚ) := by exact_mod_cast lt_of_lt_of_le zero_lt_one h1
  constructor
  · have hpos : (0 : ℚ) < (p : ℚ) / 100 * a.length := by
      apply mul_pos (div_pos hp0 (by norm_num))
      exact_mod_cast hn
    have := Int.ceil_pos.mpr hpos
    omega
  · rw [Int.ceil_le]
    have hle1 : (p : ℚ) / 100 ≤ 1 := by
      rw [div_le_one (by norm_num)]
      exact_mod_cast h2
    push_cast
    calc (p : ℚ) / 100 * a.length ≤ 1 * a.length := by
          apply mul_le_mul_of_nonneg_right hle1
          positivity
      _ = a.length := one_mul _

theorem nearest_rank_percentile_some (a : List ℚ) (p : ℤ) (ha : a ≠ [])
    (h1 : 1 ≤ p) (h2 : p ≤ 100) : ∃ v, nearest_rank_percentile a p = some v := by
  obtain ⟨hl, hu⟩ := rank_bounds a p ha h1 h2
  unfold nearest_rank_percentile
  have h0 : 0 ≤ ⌈(p : ℚ) / 100 * a.length⌉ - 1 := by omega
  have hlt : (⌈(p : ℚ) / 100 * a.length⌉ - 1).toNat < a.length := by omega
  exact ⟨_, pyIndex_some a _ h0 hlt⟩

/-! ## Lemmas about the driver loop -/

theorem parseLine_error_eq (line : String) (e : Err) (h : parseLine line = .error e) :
    e = Err.parseError := by
  simp only [parseLine] at h
  split at h
  · exact Except.noConfusion h
  · injection h with h
    exact h.symm

theorem clean_input_row_error_eq (r : InputRow) (e : Err)
    (h : clean_input_row r = .error e) : e = Err.normError := by
  simp only [clean_input_row] at h
  split at h
  · exact Except.noConfusion h
  · injection h with h
    exact h.symm

theorem stepLine_ne_indexError (p b : ℤ) (h1 : 1 ≤ p) (h2 : p ≤ 100)
    (st : DriverState) (line : String) : stepLine p b st line ≠ .error .indexError := by
  simp only [stepLine]
  cases hparse : parseLine line with
  | error e =>
    rw [parseLine_error_eq line e hparse]
    simp
  | ok row =>
    dsimp only
    by_cases hskip : skip_input_row row = true
    · simp [hskip]
    · rw [if_neg hskip]
      cases hclean : clean_input_row row with
      | error e =>
        rw [clean_input_row_error_eq row e hclean]
        simp
      | ok r =>
        dsimp only
        by_cases hgate : skip_donor_history
            (update_donor_history (st.donors (input_row_to_donor_key r)) r.year) r.year = true
        · simp [hgate]
        · rw [if_neg hgate]
          obtain ⟨v, hv⟩ := nearest_rank_percentile_some
            (update_campaign_history
              (st.campaigns (input_row_to_campaign_key r)) r.transaction_amt) p
            (insort_left_ne_nil _ _) h1 h2
          rw [hv]
          dsimp only
          by_cases hb : b = 0
          · simp [hb]
          · rw [if_neg hb]
            by_cases hm : Int.fmod (st.buffer_cnt + 1) b = 0 <;> simp [hm]

theorem runLines_ne_error (p b : ℤ) (e : Err)
    (hstep : ∀ st l, stepLine p b st l ≠ .error e) :
    ∀ (lines : List String) (st : DriverState), runLines p b st lines ≠ .error e := by
  intro lines
  induction lines with
  | nil =>
    intro st h
    exact Except.noConfusion h
  | cons l ls ih =>
    intro st
    simp only [runLines]
    cases hl : stepLine p b st l with
    | error e2 =>
      intro hc
      injection hc with h2
      exact hstep st l (h2 ▸ hl)
    | ok st2 => exact ih st2

theorem runRows_invariant :
    ∀ (rows : List CleanRow) (s : CoreState),
      (∀ k, (s.campaigns k).Sorted (· ≤ ·)) →
      ∀ k, ((runRows s rows).campaigns k).Sorted (· ≤ ·) ∧
        ((runRows s rows).campaigns k).length =
          (s.campaigns k).length + qualCount s.donors rows k := by
  intro rows
  induction rows with
  | nil =>
    intro s hs k
    exact ⟨hs k, by simp [runRows, qualCount]⟩
  | cons r rs ih =>
    intro s hs k
    have hrun : runRows s (r :: rs) = runRows (processRowCore s r) rs := rfl
    have hsorted : ∀ k2, ((processRowCore s r).campaigns k2).Sorted (· ≤ ·) := by
      intro k2
      rw [processRowCore_campaigns]
      by_cases hq : qualifies s.donors r
      · rw [if_pos hq]
        by_cases hk : k2 = input_row_to_campaign_key r
        · subst hk
          rw [Function.update_same]
          exact insort_left_sorted _ _ (hs _)
        · rw [Function.update_noteq hk]
          exact hs k2
      · rw [if_neg hq]
        exact hs k2
    obtain ⟨hs2, hlen2⟩ := ih (processRowCore s r) hsorted k
    refine ⟨by rw [hrun]; exact hs2, ?_⟩
    have hclen : ((processRowCore s r).campaigns k).length =
        (s.campaigns k).length +
          (if qualifies s.donors r && decide (input_row_to_campaign_key r = k)
            then 1 else 0) := by
      rw [processRowCore_campaigns]
      by_cases hq : qualifies s.donors r
      · rw [if_pos hq]
        by_cases hk : input_row_to_campaign_key r = k
        · subst hk
          rw [Function.update_same, update_campaign_history, insort_left_length]
          simp [hq]
        · rw [Function.update_noteq (Ne.symm hk)]
          simp [hq, hk]
      · rw [if_neg hq]
        simp [hq]
    rw [hrun, hlen2, hclen, processRowCore_donors]
    have hq : qualCount s.donors (r :: rs) k =
        (if qualifies s.donors r && decide (input_row_to_campaign_key r = k)
          then 1 else 0) + qualCount (donorStep s.donors r) rs k := rfl
    rw [hq]
    omega

/-! ## Claim theorems -/

/-- **C1.** For every structurally valid record, the record's amount is
inserted into the campaign's `amounts` for its campaign key if and only if,
immediately after the donor-ledger update for that record, the donor's
count is at least 2 and the record's year equals the donor's just-updated
`max_year`; and a record whose year is strictly below a year already seen
for that donor never triggers campaign aggregation. -/
theorem claim_C1 (s : CoreState) (r : CleanRow) :
    ((processRowCore s r).campaigns (input_row_to_campaign_key r) =
        update_campaign_history (s.campaigns (input_row_to_campaign_key r))
          r.transaction_amt ↔
      2 ≤ (update_donor_history (s.donors (input_row_to_donor_key r)) r.year).count ∧
        (update_donor_history (s.donors (input_row_to_donor_key r)) r.year).max_year =
          r.year) ∧
    (r.year < (s.donors (input_row_to_donor_key r)).max_year →
      (processRowCore s r).campaigns = s.campaigns) := by
  constructor
  · rw [processRowCore_campaigns]
    by_cases hq : qualifies s.donors r
    · rw [if_pos hq, Function.update_same]
      exact iff_of_true rfl ((qualifies_iff _ _).mp hq)
    · rw [if_neg hq]
      refine iff_of_false ?_ (fun hg => hq ((qualifies_iff _ _).mpr hg))
      intro heq
      have := congrArg List.length heq
      rw [update_campaign_history, insort_left_length] at this
      omega
  · intro hy
    rw [processRowCore_campaigns]
    have hng : ¬ qualifies s.donors r = true := by
      intro hq
      obtain ⟨-, hmax⟩ := (qualifies_iff _ _).mp hq
      simp only [update_donor_history] at hmax
      have := le_max_left (s.donors (input_row_to_donor_key r)).max_year r.year
      omega
    rw [if_neg hng]

/-- **C2 (counterexample).** The claimed validator characterisation — skip
iff `other_id` is non-empty, or the zip is shorter than 5, or the date is
not 8 characters, or name/committee/amount is empty — fails on a row whose
`other_id` has exactly one character: the code does not skip it. -/
theorem claim_C2_counterexample :
    ¬ (skip_input_row demoOtherId1 = true ↔
        (demoOtherId1.other_id ≠ "" ∨ demoOtherId1.zip_code.length < 5 ∨
         demoOtherId1.transaction_dt.length ≠ 8 ∨ demoOtherId1.name = "" ∨
         demoOtherId1.cmte_id = "" ∨ demoOtherId1.transaction_amt = "")) := by
  decide

/-- **C2 (amended).** The validator skips a parsed record if and only if the
`other_id` field has more than one character, or the zip field has fewer
than 5 characters, or the date field is not exactly 8 characters, or the
name field is empty, or the committee-id field is empty, or the amount
field is empty. -/
theorem claim_C2 (r : InputRow) :
    skip_input_row r = true ↔
      (1 < r.other_id.length ∨ r.zip_code.length < 5 ∨
       r.transaction_dt.length ≠ 8 ∨ r.name = "" ∨ r.cmte_id = "" ∨
       r.transaction_amt = "") := by
  have hlen : ∀ s : String, s.length = 0 ↔ s = "" := by
    intro s
    rw [String.ext_iff]
    exact List.length_eq_zero
  simp [skip_input_row, hlen, or_assoc]

/-- **C2 (witness).** The amended characterisation applied to a concrete
row with an empty name: it is skipped. -/
theorem claim_C2_witness :
    skip_input_row ⟨"", "10001", "C00000001", "100", "01312017", ""⟩ = true :=
  (claim_C2 _).mpr (Or.inr (Or.inr (Or.inr (Or.inl rfl))))

/-- **C4.** Every ordered insertion preserves ascending order, and for every
campaign key, after any prefix of the stream of structurally valid records,
the campaign's `amounts` list is sorted ascending and its length equals the
number of qualifying repeat-donation records processed so far for that
key. -/
theorem claim_C4 :
    (∀ (l : List ℚ) (x : ℚ), l.Sorted (· ≤ ·) →
       (update_campaign_history l x).Sorted (· ≤ ·)) ∧
    ∀ (rows : List CleanRow) (k : CampaignKey),
      ((runRows coreInit rows).campaigns k).Sorted (· ≤ ·) ∧
      ((runRows coreInit rows).campaigns k).length =
        qualCount coreInit.donors rows k := by
  constructor
  · intro l x hl
    exact insort_left_sorted l x hl
  · intro rows k
    have h := runRows_invariant rows coreInit (fun _ => List.sorted_nil) k
    simpa [coreInit] using h

/-- **C4 (witness).** A concrete ordered insertion into a sorted list is
sorted. -/
theorem claim_C4_witness :
    (update_campaign_history [(1 : ℚ), 2] (3 / 2)).Sorted (· ≤ ·) :=
  claim_C4.1 [1, 2] (3 / 2) (by decide)

/-- **C5.** For every structurally valid record the donor's history is
updated regardless of the campaign gate: the count increases by exactly one
and `max_year` becomes the maximum of its previous value and the record's
year; consequently both are monotone along the stream for every donor
key. -/
theorem claim_C5 :
    (∀ (s : CoreState) (r : CleanRow),
       (processRowCore s r).donors (input_row_to_donor_key r) =
         ⟨max (s.donors (input_row_to_donor_key r)).max_year r.year,
          (s.donors (input_row_to_donor_key r)).count + 1⟩) ∧
    (∀ (s : CoreState) (rows : List CleanRow) (k : DonorKey),
       (s.donors k).max_year ≤ ((runRows s rows).donors k).max_year ∧
       (s.donors k).count ≤ ((runRows s rows).donors k).count) := by
  constructor
  · intro s r
    rw [processRowCore_donors]
    unfold donorStep
    rw [Function.update_same]
    rfl
  · intro s rows
    induction rows generalizing s with
    | nil => intro k; exact ⟨le_refl _, le_refl _⟩
    | cons r rs ih =>
      intro k
      have h1 := donorStep_mono s.donors r k
      have h2 := ih (processRowCore s r) k
      rw [processRowCore_donors] at h2
      exact ⟨le_trans h1.1 h2.1, le_trans h1.2 h2.2⟩

/-- **C6.** The campaign amounts list handed to the percentile computation
is never empty — an insertion always immediately precedes the call — and
consequently, for any run of the driver whose percentile value is an
integer in `[1, 100]`, the empty-collection failure (`IndexError`) is
unreachable. -/
theorem claim_C6 :
    (∀ (l : List ℚ) (x : ℚ), update_campaign_history l x ≠ []) ∧
    (∀ (lines pls : List String) (pl : String) (b p : ℤ),
       pyInt pl = some p → 1 ≤ p → p ≤ 100 →
       get_repeat_donations lines (pl :: pls) b ≠ .error .indexError) := by
  constructor
  · intro l x
    exact insort_left_ne_nil l x
  · intro lines pls pl b p hpl h1 h2
    unfold get_repeat_donations
    dsimp only
    rw [hpl]
    have hrl := runLines_ne_error p b .indexError
      (fun st l => stepLine_ne_indexError p b h1 h2 st l) lines initState
    intro hc
    dsimp only at hc
    cases hr : runLines p b initState lines with
    | error e =>
      rw [hr] at hc
      dsimp only at hc
      injection hc with hc2
      exact hrl (by rw [hr, hc2])
    | ok st =>
      rw [hr] at hc
      dsimp only at hc
      by_cases hempty : lines.isEmpty
      · rw [if_pos hempty] at hc
        simp at hc
      · rw [if_neg hempty] at hc
        exact Except.noConfusion hc

/-- **C6 (witness).** A concrete insertion is non-empty, and a concrete run
with percentile 50 does not fail with `IndexError`. -/
theorem claim_C6_witness :
    update_campaign_history [] (3 : ℚ) ≠ [] ∧
    get_repeat_donations [] ["50"] 5 ≠ .error .indexError :=
  ⟨claim_C6.1 [] 3, claim_C6.2 [] [] "50" 5 50 rfl (by decide) (by decide)⟩

/-- **C7.** The claim says the driver flushes unconditionally at stream end
and terminates normally even when the input contained no lines; the code
instead references the loop variable `i` after the loop, which is unbound
for an empty input, so the run aborts with `NameError` before the final
flush. -/
theorem claim_C7 : get_repeat_donations [] ["50"] 1000 = .error .nameError := rfl

/-- **C10.** Only the first line of the percentile stream is ever consumed:
two runs over the same input whose percentile streams have equal first
lines produce identical results, regardless of any later lines. -/
theorem claim_C10 (lines pls1 pls2 : List String) (b : ℤ)
    (h : pls1.head? = pls2.head?) :
    get_repeat_donations lines pls1 b = get_repeat_donations lines pls2 b := by
  cases pls1 with
  | nil =>
    cases pls2 with
    | nil => rfl
    | cons p2 t2 => simp at h
  | cons p1 t1 =>
    cases pls2 with
    | nil => simp at h
    | cons p2 t2 =>
      simp only [List.head?, Option.some.injEq] at h
      subst h
      rfl

/-- **C10 (witness).** Two concrete runs whose percentile streams agree on
the first line only. -/
theorem claim_C10_witness :
    get_repeat_donations [] ["50", "1"] 7 = get_repeat_donations [] ["50", "999", "x"] 7 :=
  claim_C10 [] ["50", "1"] ["50", "999", "x"] 7 rfl

/-- **C1 (witness).** A 2017 record for a donor whose ledger already shows a
maximal year of 2020 leaves every campaign history unchanged. -/
theorem claim_C1_witness :
    (processRowCore demoDonorState demoRow).campaigns = demoDonorState.campaigns :=
  (claim_C1 demoDonorState demoRow).2 (by decide)

/-! ## Lemmas about the output formatting -/

theorem pyTrunc_intCast (z : ℤ) : pyTrunc (z : ℚ) = z := by
  unfold pyTrunc
  split <;> simp

theorem sum_field_eq_renderSum (s : ℚ) :
    (if (pyTrunc s : ℚ) ≠ s then fmt2 s else intRepr (pyTrunc s)) = renderSum s := by
  unfold renderSum
  by_cases hd : s.den = 1
  · have hz : ((s.num : ℚ)) = s := (Rat.den_eq_one_iff s).mp hd
    have ht : pyTrunc s = s.num := by
      conv_lhs => rw [← hz]
      exact pyTrunc_intCast s.num
    have hne : ¬ ((pyTrunc s : ℚ) ≠ s) := by
      rw [ht, hz]
      exact fun h => h rfl
    rw [if_neg hne, if_pos hd, ht]
  · have hne : (pyTrunc s : ℚ) ≠ s := by
      intro h
      apply hd
      rw [← h]
      exact Rat.den_intCast _
    rw [if_pos hne, if_neg hd]

theorem digitCharsAux_isDigit :
    ∀ (fuel n : ℕ) (acc : List Char), (∀ c ∈ acc, c.isDigit = true) →
      ∀ c ∈ digitCharsAux fuel n acc, c.isDigit = true := by
  intro fuel
  induction fuel with
  | zero =>
    intro n acc hacc
    simpa [digitCharsAux] using hacc
  | succ f ih =>
    intro n acc hacc c hc
    have hd10 : ∀ d, d < 10 → (Nat.digitChar d).isDigit = true := by decide
    have hdig : (Nat.digitChar (n % 10)).isDigit = true :=
      hd10 _ (Nat.mod_lt _ (by norm_num))
    have hacc2 : ∀ c2 ∈ Nat.digitChar (n % 10) :: acc, c2.isDigit = true := by
      intro c2 hc2
      rcases List.mem_cons.mp hc2 with h | h
      · rw [h]; exact hdig
      · exact hacc c2 h
    simp only [digitCharsAux] at hc
    by_cases hn : n < 10
    · rw [if_pos hn] at hc
      exact hacc2 c hc
    · rw [if_neg hn] at hc
      exact ih _ _ hacc2 c hc

theorem natRepr_isDigit (n : ℕ) : ∀ c ∈ (natRepr n).data, c.isDigit = true := by
  intro c hc
  exact digitCharsAux_isDigit (n + 1) n [] (by simp) c hc

theorem isDigit_ne_dot (c : Char) (h : c.isDigit = true) : c ≠ '.' := by
  intro hc
  subst hc
  exact absurd h (by decide)

theorem intRepr_no_dot (i : ℤ) : ∀ c ∈ (intRepr i).data, c ≠ '.' := by
  intro c hc
  unfold intRepr at hc
  split at hc
  · rw [String.data_append] at hc
    rcases List.mem_append.mp hc with h | h
    · intro hd
      subst hd
      simp at h
    · exact isDigit_ne_dot c (natRepr_isDigit _ c h)
  · exact isDigit_ne_dot c (natRepr_isDigit _ c hc)

/-- **C9.** Every emitted line has the form
`cmte_id|zip_code|year|round(percentile)|sum|count` followed by a newline;
the sum field contains no decimal point when the sum is integral, and
otherwise consists of an integer part, a dot, and exactly two digits. -/
theorem claim_C9 (cmte_id zip_code : String) (year : ℤ) (percentile sum_ : ℚ)
    (count : ℕ) :
    get_output_str cmte_id zip_code year percentile sum_ count =
      cmte_id ++ "|" ++ zip_code ++ "|" ++ intRepr year ++ "|" ++
        intRepr (pyRound percentile) ++ "|" ++ renderSum sum_ ++ "|" ++
        natRepr count ++ "\n" ∧
    (sum_.den = 1 → ∀ c ∈ (renderSum sum_).data, c ≠ '.') ∧
    (sum_.den ≠ 1 → ∃ a b, renderSum sum_ = a ++ "." ++ b ∧ b.length = 2) := by
  refine ⟨?_, ?_, ?_⟩
  · unfold get_output_str
    rw [sum_field_eq_renderSum]
  · intro hd c hc
    unfold renderSum at hc
    rw [if_pos hd] at hc
    exact intRepr_no_dot _ c hc
  · intro hd
    unfold renderSum
    rw [if_neg hd]
    exact ⟨(if pyRound (sum_ * 100) < 0 then "-" else "") ++
      natRepr ((pyRound (sum_ * 100)).natAbs / 100),
      String.mk [Nat.digitChar ((pyRound (sum_ * 100)).natAbs / 10 % 10),
        Nat.digitChar ((pyRound (sum_ * 100)).natAbs % 10)], rfl, rfl⟩

/-- **C9 (witness).** For the integral sum `350` the rendered sum field has
no decimal point. -/
theorem claim_C9_witness :
    ∀ c ∈ (renderSum ((350 : ℤ) : ℚ)).data, c ≠ '.' :=
  (claim_C9 "C00000001" "10001" 2017 ((350 : ℤ) : ℚ) ((350 : ℤ) : ℚ) 2).2.1
    (Rat.den_intCast 350)

/-! ## Buffer-size behaviour (C8) -/

theorem nearest_rank_singleton (x : ℚ) (p : ℤ) (h1 : 1 ≤ p) (h2 : p ≤ 100) :
    nearest_rank_percentile [x] p = some x := by
  obtain ⟨hl, hu⟩ := rank_bounds [x] p (by simp) h1 h2
  simp only [List.length_singleton, Nat.cast_one] at hu
  have hceil : ⌈(p : ℚ) / 100 * (([x] : List ℚ)).length⌉ = 1 := by
    simp only [List.length_singleton, Nat.cast_one] at hl ⊢
    omega
  unfold nearest_rank_percentile
  rw [hceil, pyIndex_some [x] (1 - 1) (by norm_num) (by simp)]
  rfl

theorem stepLine_zero_emit (p : ℤ) (st : DriverState) (line : String)
    (row : InputRow) (r : CleanRow) (v : ℚ)
    (hparse : parseLine line = .ok row)
    (hskip : skip_input_row row = false)
    (hclean : clean_input_row row = .ok r)
    (hgate : skip_donor_history
      (update_donor_history (st.donors (input_row_to_donor_key r)) r.year) r.year = false)
    (hpct : nearest_rank_percentile
      (update_campaign_history (st.campaigns (input_row_to_campaign_key r))
        r.transaction_amt) p = some v) :
    stepLine p 0 st line = .error .zeroDivError := by
  simp only [stepLine, hparse]
  rw [if_neg (by rw [hskip]; exact Bool.false_ne_true)]
  simp only [hclean]
  rw [if_neg (by rw [hgate]; exact Bool.false_ne_true)]
  simp only [hpct]
  simp

theorem stepLine_ne_zeroDiv (p b : ℤ) (hb : b ≠ 0) (st : DriverState) (line : String) :
    stepLine p b st line ≠ .error .zeroDivError := by
  simp only [stepLine]
  cases hparse : parseLine line with
  | error e =>
    rw [parseLine_error_eq line e hparse]
    simp
  | ok row =>
    dsimp only
    by_cases hskip : skip_input_row row = true
    · simp [hskip]
    · rw [if_neg hskip]
      cases hclean : clean_input_row row with
      | error e =>
        rw [clean_input_row_error_eq row e hclean]
        simp
      | ok r =>
        dsimp only
        by_cases hgate : skip_donor_history
            (update_donor_history (st.donors (input_row_to_donor_key r)) r.year) r.year = true
        · simp [hgate]
        · rw [if_neg hgate]
          cases hpct : nearest_rank_percentile
              (update_campaign_history (st.campaigns (input_row_to_campaign_key r))
                r.transaction_amt) p with
          | none => simp
          | some v =>
            dsimp only
            rw [if_neg hb]
            by_cases hm : Int.fmod (st.buffer_cnt + 1) b = 0 <;> simp [hm]

/-- **C8 (counterexample).** The claim says every non-positive buffer size
makes the run fail with a configuration error at startup, before any record
is processed; instead, a run with buffer size `-1` over one valid input line
completes normally (there is no buffer-size validation anywhere). -/
theorem claim_C8_counterexample :
    get_repeat_donations [lineA] ["50"] (-1) = .ok "" := rfl

/-- **C8 (amended).** Non-positive buffer sizes are not rejected at startup:
a zero buffer size causes a fatal `ZeroDivisionError` at the first
flush-cadence check, only after the first qualifying record has been
parsed, validated, applied to both ledgers and formatted; a negative buffer
size never causes any buffer-related failure. -/
theorem claim_C8 :
    get_repeat_donations [lineA, lineB] ["100"] 0 = .error .zeroDivError ∧
    (∀ (lines pls : List String) (b : ℤ), b < 0 →
       get_repeat_donations lines pls b ≠ .error .zeroDivError) := by
  constructor
  · have hpct : nearest_rank_percentile
        (update_campaign_history
          (stA.campaigns (input_row_to_campaign_key
            ⟨"SMITH, JOHN", "10001", "C00000001", 2017, ((200 : ℕ) : ℚ), ""⟩))
          ((200 : ℕ) : ℚ)) 100 = some ((200 : ℕ) : ℚ) := by
      have hl : update_campaign_history
          (stA.campaigns (input_row_to_campaign_key
            ⟨"SMITH, JOHN", "10001", "C00000001", 2017, ((200 : ℕ) : ℚ), ""⟩))
          ((200 : ℕ) : ℚ) = [((200 : ℕ) : ℚ)] := rfl
      rw [hl]
      exact nearest_rank_singleton ((200 : ℕ) : ℚ) 100 (by norm_num) (by norm_num)
    have h1 : stepLine 100 0 initState lineA = .ok stA := rfl
    have h2 : stepLine 100 0 stA lineB = .error .zeroDivError :=
      stepLine_zero_emit 100 stA lineB
        ⟨"SMITH, JOHN", "100013933", "C00000001", "200", "01312017", ""⟩
        ⟨"SMITH, JOHN", "10001", "C00000001", 2017, ((200 : ℕ) : ℚ), ""⟩
        ((200 : ℕ) : ℚ) rfl rfl rfl rfl hpct
    have hrun : runLines 100 0 initState [lineA, lineB] = .error .zeroDivError := by
      simp only [runLines, h1, h2]
    unfold get_repeat_donations
    dsimp only
    rw [show pyInt "100" = some (100 : ℤ) from rfl]
    dsimp only
    rw [hrun]
  · intro lines pls b hb hc
    unfold get_repeat_donations at hc
    cases pls with
    | nil => simp at hc
    | cons pl t =>
      dsimp only at hc
      cases hpy : pyInt pl with
      | none =>
        rw [hpy] at hc
        simp at hc
      | some p =>
        rw [hpy] at hc
        dsimp only at hc
        have hrl := runLines_ne_error p b .zeroDivError
          (fun st l => stepLine_ne_zeroDiv p b (by omega) st l) lines initState
        cases hr : runLines p b initState lines with
        | error e =>
          rw [hr] at hc
          dsimp only at hc
          injection hc with hc2
          exact hrl (by rw [hr, hc2])
        | ok st =>
          rw [hr] at hc
          dsimp only at hc
          by_cases hempty : lines.isEmpty
          · rw [if_pos hempty] at hc
            simp at hc
          · rw [if_neg hempty] at hc
            exact Except.noConfusion hc

/-- **C8 (witness).** A concrete run with buffer size `-1` does not raise
the division error. -/
theorem claim_C8_witness :
    get_repeat_donations [] ["50"] (-1) ≠ .error .zeroDivError :=
  claim_C8.2 [] ["50"] (-1) (by decide)

/-! ## The percentile rank in IEEE binary64 arithmetic (C3) -/

theorem int_log2_eq (x : ℚ) (e : ℤ) (hx : 0 < x) (hle : (2 : ℚ) ^ e ≤ x)
    (hlt : x < (2 : ℚ) ^ (e + 1)) : Int.log 2 x = e := by
  have hcast : ((2 : ℕ) : ℚ) = (2 : ℚ) := by norm_num
  have h1 : e ≤ Int.log 2 x :=
    (Int.zpow_le_iff_le_log (by norm_num) hx).mp (by rw [hcast]; exact hle)
  have h2 : Int.log 2 x < e + 1 :=
    (Int.lt_zpow_iff_log_lt (by norm_num) hx).mp (by rw [hcast]; exact hlt)
  omega

theorem pyRound_up (q : ℚ) (z : ℤ) (hfl : ⌊q⌋ = z) (hr : 1 / 2 < q - z) :
    pyRound q = z + 1 := by
  simp only [pyRound, hfl]
  rw [if_neg (not_lt.mpr hr.le), if_pos hr]

theorem fl64_pos_eq (q : ℚ) (hq : 0 < q) :
    fl64 q = (pyRound (q / 2 ^ (Int.log 2 q - 52)) : ℚ) * 2 ^ (Int.log 2 q - 52) := by
  have hne : ¬ q = 0 := ne_of_gt hq
  have hnl : ¬ q < 0 := not_lt.mpr hq.le
  simp only [fl64, hne, hnl, if_false, abs_of_pos hq, one_mul]

/-- The binary64 value of `7 / 100` (in Python: `0.07`, whose exact value is
`5044031582654956 * 2 ^ -56`, slightly above `7/100`). -/
theorem fl64_seven_hundredths :
    fl64 ((7 : ℚ) / 100) = 5044031582654956 / 2 ^ 56 := by
  have hlog : Int.log 2 ((7 : ℚ) / 100) = -4 :=
    int_log2_eq _ _ (by norm_num) (by norm_num) (by norm_num)
  rw [fl64_pos_eq _ (by norm_num), hlog]
  have harg : (7 : ℚ) / 100 / 2 ^ ((-4 : ℤ) - 52) = 504403158265495552 / 100 := by
    norm_num
  rw [harg]
  have hfl : ⌊(504403158265495552 : ℚ) / 100⌋ = 5044031582654955 := by
    rw [Int.floor_eq_iff]
    constructor <;> norm_num
  rw [pyRound_up _ _ hfl (by norm_num)]
  norm_num

/-- The binary64 product `0.07 * 100` (in Python: `7.000000000000001`, whose
exact value is `7881299347898369 * 2 ^ -50`, slightly above `7`). -/
theorem fl64_product :
    fl64 ((5044031582654956 : ℚ) / 2 ^ 56 * 100) = 7881299347898369 / 2 ^ 50 := by
  have hx : (5044031582654956 : ℚ) / 2 ^ 56 * 100 = 504403158265495600 / 2 ^ 56 := by
    norm_num
  rw [hx]
  have hlog : Int.log 2 ((504403158265495600 : ℚ) / 2 ^ 56) = 2 :=
    int_log2_eq _ _ (by norm_num) (by norm_num) (by norm_num)
  rw [fl64_pos_eq _ (by norm_num), hlog]
  have harg : (504403158265495600 : ℚ) / 2 ^ 56 / 2 ^ ((2 : ℤ) - 52) =
      31525197391593475 / 4 := by
    norm_num
  rw [harg]
  have hfl : ⌊(31525197391593475 : ℚ) / 4⌋ = 7881299347898368 := by
    rw [Int.floor_eq_iff]
    constructor <;> norm_num
  rw [pyRound_up _ _ hfl (by norm_num)]
  norm_num

/-- **C3 (code bug).** On a campaign with the 100 sorted amounts
`1, ..., 100` and percentile `7`, the claim's rank
`ceil(7/100 × 100)` clamped to `[1, 100]` is `7`, so the claimed result is
the 7th smallest element, `7` — and the exact-arithmetic reading of the
code agrees; but the code computes the rank in IEEE binary64 floats, where
`ceil(7/100 * 100) = ceil(7.000000000000001) = 8`, so the code actually
returns the 8th smallest element, `8`. -/
theorem claim_C3 :
    nearest_rank_float demoList 7 = some 8 ∧
    nearest_rank_percentile demoList 7 = some 7 ∧
    min (max ⌈(7 : ℚ) / 100 * (demoList.length : ℚ)⌉ 1) (demoList.length : ℤ) = 7 ∧
    (8 : ℚ) ≠ 7 := by
  have hlenQ : ((demoList.length : ℕ) : ℚ) = 100 := by
    rw [show demoList.length = 100 from rfl]
    norm_num
  have hlenZ : ((demoList.length : ℕ) : ℤ) = 100 := by
    rw [show demoList.length = 100 from rfl]
    norm_num
  refine ⟨?_, ?_, ?_, by norm_num⟩
  · unfold nearest_rank_float
    rw [show (((7 : ℤ)) : ℚ) / 100 = (7 : ℚ) / 100 from by norm_num]
    rw [fl64_seven_hundredths, hlenQ, fl64_product]
    rw [show ⌈(7881299347898369 : ℚ) / 2 ^ 50⌉ = 8 from by
      rw [Int.ceil_eq_iff]
      constructor <;> norm_num]
    exact (rfl : pyIndex demoList ((8 : ℤ) - 1) = some 8)
  · unfold nearest_rank_percentile
    rw [hlenQ]
    rw [show ⌈(((7 : ℤ)) : ℚ) / 100 * (100 : ℚ)⌉ = 7 from by
      rw [Int.ceil_eq_iff]
      constructor <;> norm_num]
    exact (rfl : pyIndex demoList ((7 : ℤ) - 1) = some 7)
  · rw [hlenQ, hlenZ]
    rw [show ⌈(7 : ℚ) / 100 * (100 : ℚ)⌉ = 7 from by
      rw [Int.ceil_eq_iff]
      constructor <;> norm_num]
    norm_num
